import Mathlib

/-!
Verification of the screen-time tracker's core logic: the entry/goal store
(`screen-time-context`), the aggregation queries (`getTodayUsage`,
`getUsageByDate`, the chart grouping in `UsageStats`), the form submission
(`TimeTracker`) and the goal-conflict validation (`GoalSetting`).

Modelling conventions:
* TypeScript string unions (`Device`, `Category`, goal `type`) are `String`.
* `duration`/`limit` are `Nat` (minutes, non-negative integers per the data
  model); the raw form inputs `hours`/`minutes` are `ℚ` because the zod
  schema only coerces to a JS number.
* Optional values (`string | undefined`) are `Option String`; JS truthiness
  of such a value (`if (x)`) is `jsTruthy`.
* `crypto.randomUUID()` is modelled by passing the generated id as an
  explicit argument; freshness (a UUID is a new non-colliding id) becomes an
  explicit hypothesis where it matters.
* `Array.prototype.sort` (a stable sort by the comparator) is modelled by
  `List.insertionSort`, and a JS `Map` (insertion-ordered) by an
  association list with in-place update (`mapSet`).
* `Math.round` agrees with Mathlib's `round` (`⌊x + 1/2⌋`) on the
  non-negative rationals that occur here.
-/

namespace ScreenTimeApp

/-- The `TimeEntry` record from `screen-time-context`. -/
structure TimeEntry where
  id : String
  date : String
  device : String
  app : String
  category : String
  duration : Nat
  notes : Option String
deriving DecidableEq

/-- The id-less part of a `TimeEntry` (`Omit<TimeEntry, "id">`). -/
structure EntryData where
  date : String
  device : String
  app : String
  category : String
  duration : Nat
  notes : Option String
deriving DecidableEq

def entryData (e : TimeEntry) : EntryData :=
  ⟨e.date, e.device, e.app, e.category, e.duration, e.notes⟩

def mkEntry (newId : String) (d : EntryData) : TimeEntry :=
  ⟨newId, d.date, d.device, d.app, d.category, d.duration, d.notes⟩

/-- A `Partial<TimeEntry>`: each field independently present or absent. -/
structure PatchEntry where
  id : Option String
  date : Option String
  device : Option String
  app : Option String
  category : Option String
  duration : Option Nat
  notes : Option (Option String)
deriving DecidableEq

/-- The spread `{ ...entry, ...updatedFields }`. -/
def patchEntry (e : TimeEntry) (p : PatchEntry) : TimeEntry :=
  ⟨p.id.getD e.id, p.date.getD e.date, p.device.getD e.device,
   p.app.getD e.app, p.category.getD e.category, p.duration.getD e.duration,
   p.notes.getD e.notes⟩

/-- The `Goal` record from `screen-time-context`. -/
structure Goal where
  id : String
  type : String
  target : String
  limit : Nat
deriving DecidableEq

/-- The id-less part of a `Goal` (`Omit<Goal, "id">`, the goal form values). -/
structure GoalVals where
  type : String
  target : String
  limit : Nat
deriving DecidableEq

def goalVals (g : Goal) : GoalVals := ⟨g.type, g.target, g.limit⟩

def mkGoal (newId : String) (v : GoalVals) : Goal :=
  ⟨newId, v.type, v.target, v.limit⟩

/-- A `Partial<Goal>`. -/
structure PatchGoal where
  id : Option String
  type : Option String
  target : Option String
  limit : Option Nat
deriving DecidableEq

/-- The spread `{ ...goal, ...updatedFields }`. -/
def patchGoal (g : Goal) (p : PatchGoal) : Goal :=
  ⟨p.id.getD g.id, p.type.getD g.type, p.target.getD g.target,
   p.limit.getD g.limit⟩

/-- JS truthiness of a `string | undefined` value. -/
def jsTruthy : Option String → Bool
  | none => false
  | some s => !(s == "")

/-! ## Store operations (`ScreenTimeProvider`) -/

def addEntry (newId : String) (d : EntryData) (entries : List TimeEntry) :
    List TimeEntry :=
  entries ++ [mkEntry newId d]

def updateEntry (i : String) (p : PatchEntry) (entries : List TimeEntry) :
    List TimeEntry :=
  entries.map fun e => if e.id == i then patchEntry e p else e

def deleteEntry (i : String) (entries : List TimeEntry) : List TimeEntry :=
  entries.filter fun e => e.id != i

def addGoal (newId : String) (v : GoalVals) (goals : List Goal) : List Goal :=
  goals ++ [mkGoal newId v]

def updateGoal (i : String) (p : PatchGoal) (goals : List Goal) : List Goal :=
  goals.map fun g => if g.id == i then patchGoal g p else g

def deleteGoal (i : String) (goals : List Goal) : List Goal :=
  goals.filter fun g => g.id != i

/-- The filter predicate inside `getTodayUsage`, with `today` (the
`new Date().toISOString().split("T")[0]` value) passed explicitly. -/
def todayFilter (today : String) (type target : Option String)
    (e : TimeEntry) : Bool :=
  if e.date != today then false
  else if !(jsTruthy type) then true
  else if type == some "app" then some e.app == target
  else if type == some "category" then some e.category == target
  else true

def getTodayUsage (today : String) (type target : Option String)
    (entries : List TimeEntry) : Nat :=
  (entries.filter (todayFilter today type target)).foldl
    (fun total e => total + e.duration) 0

def getUsageByDate (date : String) (entries : List TimeEntry) :
    List TimeEntry :=
  entries.filter fun e => e.date == date

/-- The whole store (`entries` plus `goals`), for frame properties. -/
structure Store where
  entries : List TimeEntry
  goals : List Goal
deriving DecidableEq

def storeUpdateEntry (i : String) (p : PatchEntry) (s : Store) : Store :=
  ⟨updateEntry i p s.entries, s.goals⟩

def storeDeleteEntry (i : String) (s : Store) : Store :=
  ⟨deleteEntry i s.entries, s.goals⟩

def storeUpdateGoal (i : String) (p : PatchGoal) (s : Store) : Store :=
  ⟨s.entries, updateGoal i p s.goals⟩

def storeDeleteGoal (i : String) (s : Store) : Store :=
  ⟨s.entries, deleteGoal i s.goals⟩

/-! ## Usage statistics (`UsageStats`) -/

/-- The `filteredEntries` list in `UsageStats`: the entries of the selected date. -/
def filteredEntries (selectedDate : String) (entries : List TimeEntry) :
    List TimeEntry :=
  entries.filter fun e => e.date == selectedDate

/-- The `totalMinutes` value in `UsageStats`. -/
def totalMinutes (selectedDate : String) (entries : List TimeEntry) : Nat :=
  (filteredEntries selectedDate entries).foldl
    (fun total e => total + e.duration) 0

/-- The grouping key per selected view (`category` / `app` / `device`). -/
def entryKey (view : String) (e : TimeEntry) : String :=
  if view == "category" then e.category
  else if view == "app" then e.app
  else e.device

/-- A JS `Map<string, number>` as an insertion-ordered association list;
`mapSet m k d` performs `m.set(k, (m.get(k) ?? 0) + d)` the way the
`getGroupedData` reducer does. -/
def mapSet : List (String × Nat) → String → Nat → List (String × Nat)
  | [], k, d => [(k, d)]
  | (k0, d0) :: rest, k, d =>
      if k0 == k then (k0, d0 + d) :: rest else (k0, d0) :: mapSet rest k d

/-- The `grouped` map built by `getGroupedData`'s `forEach` loop. -/
def groupedMap (view selectedDate : String) (entries : List TimeEntry) :
    List (String × Nat) :=
  (filteredEntries selectedDate entries).foldl
    (fun m e => mapSet m (entryKey view e) e.duration) []

/-- One item of the chart data (`{ name, duration }`). -/
structure GroupItem where
  name : String
  duration : Nat
deriving DecidableEq

/-- The order imposed by the comparator `(a, b) => b.duration - a.duration`:
`a` may come before `b` iff `a.duration ≥ b.duration`. -/
def byDurationDesc (a b : GroupItem) : Prop := b.duration ≤ a.duration

instance : DecidableRel byDurationDesc :=
  fun a b => inferInstanceAs (Decidable (b.duration ≤ a.duration))

instance : IsTotal GroupItem byDurationDesc :=
  ⟨fun a b => Nat.le_total b.duration a.duration⟩

instance : IsTrans GroupItem byDurationDesc :=
  ⟨fun _ _ _ hab hbc => le_trans hbc hab⟩

/-- The `getGroupedData` function: group the selected date's entries by key, then sort
descending by duration (JS `sort` is a stable sort by the comparator,
modelled by insertion sort). -/
def getGroupedData (view selectedDate : String) (entries : List TimeEntry) :
    List GroupItem :=
  List.insertionSort byDurationDesc
    ((groupedMap view selectedDate entries).map fun p => ⟨p.1, p.2⟩)

/-- The value `Math.round((duration / totalMinutes) * 100)` as computed per item in
`UsageStats` (Mathlib's `round` is `⌊x + 1/2⌋`, which is `Math.round` on
the non-negative values occurring here). -/
def percentage (total duration : Nat) : ℤ :=
  round (((duration : ℚ) / (total : ℚ)) * 100)

/-! ## Time tracking form (`TimeTracker`) -/

/-- The values of the `TimeTracker` form. `hours` and `minutes` are
rationals: `z.coerce.number()` produces a JS number with only `min`/`max`
bounds and no integrality constraint. -/
structure FormValues where
  app : String
  category : String
  device : String
  hours : ℚ
  minutes : ℚ
  notes : Option String
deriving DecidableEq

/-- The `formSchema` zod validation of `TimeTracker`: non-empty app,
category and device, `hours` in `[0, 24]`, `minutes` in `[0, 59]`. -/
def formSchemaAccepts (v : FormValues) : Prop :=
  1 ≤ v.app.length ∧ 1 ≤ v.category.length ∧ 1 ≤ v.device.length ∧
  0 ≤ v.hours ∧ v.hours ≤ 24 ∧ 0 ≤ v.minutes ∧ v.minutes ≤ 59

/-- The value `totalMinutes = values.hours * 60 + values.minutes` computed by the
form's `onSubmit` and stored as the new entry's `duration`. -/
def submittedDuration (v : FormValues) : ℚ :=
  v.hours * 60 + v.minutes

/-! ## Goal setting (`GoalSetting`) -/

/-- The predicate of the `goals.find` scan inside `hasConflict`. -/
def conflictPred (type : String) (target : Option String)
    (excludeId : Option String) (goal : Goal) : Bool :=
  if jsTruthy excludeId && (some goal.id == excludeId) then false
  else if type == "total" && goal.type == "total" then true
  else if type == "category" && goal.type == "category" &&
      (some goal.target == target) then true
  else if type == "app" && goal.type == "app" &&
      (some goal.target == target) then true
  else false

/-- The scan `hasConflict(type, target, limit, excludeId?)`; the `limit` parameter is
taken but never read, exactly as in the source. -/
def hasConflict (goals : List Goal) (type : String) (target : Option String)
    (limit : Nat) (excludeId : Option String) : Option Goal :=
  goals.find? (conflictPred type target excludeId)

/-- The inline error message `onSubmit` builds per conflict type. -/
def errorMessageFor (v : GoalVals) : String :=
  if v.type == "total" then
    "You already have a total screen time goal. Please edit the existing goal instead."
  else if v.type == "category" then
    "You already have a goal for the \"" ++ v.target ++
      "\" category. Please edit the existing goal instead."
  else
    "You already have a goal for the app \"" ++ v.target ++
      "\". Please edit the existing goal instead."

/-- The observable outcome of `GoalSetting.onSubmit`. -/
structure SubmitResult where
  goals : List Goal
  formError : Option String
  calledAddGoal : Bool
  calledUpdateGoal : Bool
deriving DecidableEq

/-- The value `isEditing || undefined` as passed to `hasConflict`. -/
def jsOrUndefined (o : Option String) : Option String :=
  if jsTruthy o then o else none

/-- The full update `updateGoal(isEditing, values)` sends: all three form
fields present, no id. -/
def fullGoalPatch (v : GoalVals) : PatchGoal :=
  ⟨none, some v.type, some v.target, some v.limit⟩

/-- The effect of `GoalSetting.onSubmit` on the goal collection: reject on conflict
(`if (conflictingGoal)` is truthy iff the find returned a goal), otherwise
update the edited goal or add a fresh one. -/
def onSubmitGoal (goals : List Goal) (isEditing : Option String)
    (v : GoalVals) (newId : String) : SubmitResult :=
  if (hasConflict goals v.type (some v.target) v.limit
      (jsOrUndefined isEditing)).isSome then
    ⟨goals, some (errorMessageFor v), false, false⟩
  else if jsTruthy isEditing then
    ⟨updateGoal (isEditing.getD "") (fullGoalPatch v) goals, none,
      false, true⟩
  else
    ⟨addGoal newId v goals, none, true, false⟩

/-- The goal-page state: the goal collection plus the pending undo data of
recently deleted goals (each delete toast offers one undo). -/
structure UIState where
  goals : List Goal
  pendingUndo : List GoalVals
deriving DecidableEq

def submitStep (s : UIState) (isEditing : Option String) (v : GoalVals)
    (newId : String) : UIState :=
  ⟨(onSubmitGoal s.goals isEditing v newId).goals, s.pendingUndo⟩

/-- The `confirmDelete` handler: delete the goal, remember its data for undo. -/
def deleteStep (s : UIState) (g : Goal) : UIState :=
  ⟨deleteGoal g.id s.goals, goalVals g :: s.pendingUndo⟩

/-- The undo toast action: `addGoal` with the remembered data (and no
conflict check). -/
def undoStep (s : UIState) (d : GoalVals) (newId : String) : UIState :=
  ⟨addGoal newId d s.goals, s.pendingUndo.erase d⟩

/-- States reachable through the goal page: goal submission (create or
edit), confirmed delete, and the undo re-creation. Generated ids are fresh. -/
inductive ReachableU : UIState → Prop where
  | init : ReachableU ⟨[], []⟩
  | submit {s : UIState} (hs : ReachableU s) (isEditing : Option String)
      (v : GoalVals) (newId : String)
      (hfresh : newId ∉ s.goals.map Goal.id) :
      ReachableU (submitStep s isEditing v newId)
  | delete {s : UIState} (hs : ReachableU s) (g : Goal) (hg : g ∈ s.goals) :
      ReachableU (deleteStep s g)
  | undo {s : UIState} (hs : ReachableU s) (d : GoalVals) (newId : String)
      (hd : d ∈ s.pendingUndo) (hfresh : newId ∉ s.goals.map Goal.id) :
      ReachableU (undoStep s d newId)

/-- Like `ReachableU`, but every undo happens while no conflicting goal
exists (the restriction under which the uniqueness invariant survives). -/
inductive ReachableS : UIState → Prop where
  | init : ReachableS ⟨[], []⟩
  | submit {s : UIState} (hs : ReachableS s) (isEditing : Option String)
      (v : GoalVals) (newId : String)
      (hfresh : newId ∉ s.goals.map Goal.id) :
      ReachableS (submitStep s isEditing v newId)
  | delete {s : UIState} (hs : ReachableS s) (g : Goal) (hg : g ∈ s.goals) :
      ReachableS (deleteStep s g)
  | undo {s : UIState} (hs : ReachableS s) (d : GoalVals) (newId : String)
      (hd : d ∈ s.pendingUndo) (hfresh : newId ∉ s.goals.map Goal.id)
      (hok : hasConflict s.goals d.type (some d.target) d.limit none = none) :
      ReachableS (undoStep s d newId)

/-- Two goals occupy the same slot: both `total`, or same `app`/`category`
type with the same target. -/
def sameSlot (a b : Goal) : Prop :=
  (a.type = "total" ∧ b.type = "total") ∨
  ((a.type = "app" ∨ a.type = "category") ∧ a.type = b.type ∧
    a.target = b.target)

instance (a b : Goal) : Decidable (sameSlot a b) := by
  unfold sameSlot; exact inferInstance

/-- At most one goal per (type, target); at most one total goal. -/
def goalInvariant (goals : List Goal) : Prop :=
  goals.Pairwise fun a b => ¬ sameSlot a b

/-- The slot invariant together with distinctness of generated ids. -/
def goodGoals (goals : List Goal) : Prop :=
  (goals.map Goal.id).Nodup ∧ goalInvariant goals

/-! ## Helper lemmas -/

theorem foldl_add_duration (l : List TimeEntry) (n : Nat) :
    l.foldl (fun total e => total + e.duration) n =
      n + (l.map TimeEntry.duration).sum := by
  induction l generalizing n with
  | nil => simp
  | cons e t ih => simp [List.foldl_cons, ih, Nat.add_assoc]

theorem todayFilter_none (today : String) (e : TimeEntry) :
    todayFilter today none none e = (e.date == today) := by
  unfold todayFilter jsTruthy
  by_cases h : e.date = today <;> simp [h]

theorem todayFilter_app (today t : String) (e : TimeEntry) :
    todayFilter today (some "app") (some t) e =
      (e.date == today && e.app == t) := by
  unfold todayFilter jsTruthy
  by_cases h1 : e.date = today <;> by_cases h2 : e.app = t <;>
    simp [h1, h2]

theorem todayFilter_category (today t : String) (e : TimeEntry) :
    todayFilter today (some "category") (some t) e =
      (e.date == today && e.category == t) := by
  unfold todayFilter jsTruthy
  by_cases h1 : e.date = today <;> by_cases h2 : e.category = t <;>
    simp [h1, h2]

/-! ## Claims -/

/-- C1: `getTodayUsage()` returns the sum of the durations of exactly the
entries dated `today`; `getTodayUsage("app", t)` the sum over today's
entries with app `t`; `getTodayUsage("category", t)` the sum over today's
entries with category `t`; and 0 when no entry matches. -/
theorem getTodayUsage_spec (entries : List TimeEntry) (today t : String) :
    getTodayUsage today none none entries =
      ((entries.filter fun e => e.date == today).map TimeEntry.duration).sum
  ∧ getTodayUsage today (some "app") (some t) entries =
      ((entries.filter fun e => e.date == today && e.app == t).map
        TimeEntry.duration).sum
  ∧ getTodayUsage today (some "category") (some t) entries =
      ((entries.filter fun e => e.date == today && e.category == t).map
        TimeEntry.duration).sum
  ∧ ((∀ e ∈ entries, e.date ≠ today) →
      getTodayUsage today none none entries = 0) := by
  refine ⟨?_, ?_, ?_, ?_⟩
  · rw [getTodayUsage, foldl_add_duration, Nat.zero_add,
      List.filter_congr fun e _ => todayFilter_none today e]
  · rw [getTodayUsage, foldl_add_duration, Nat.zero_add,
      List.filter_congr fun e _ => todayFilter_app today t e]
  · rw [getTodayUsage, foldl_add_duration, Nat.zero_add,
      List.filter_congr fun e _ => todayFilter_category today t e]
  · intro h
    rw [getTodayUsage, foldl_add_duration, Nat.zero_add,
      List.filter_congr fun e _ => todayFilter_none today e]
    have : entries.filter (fun e => e.date == today) = [] := by
      rw [List.filter_eq_nil_iff]
      intro e he
      simpa using h e he
    rw [this]
    rfl

/-- C1 witness: evaluating the claim on a concrete two-entry list. -/
theorem getTodayUsage_spec_witness :
    (∀ e ∈ [(⟨"a", "2024-01-01", "phone", "Instagram", "social media", 30,
        none⟩ : TimeEntry)], e.date ≠ "2024-01-02") ∧
    getTodayUsage "2024-01-02" none none
      [(⟨"a", "2024-01-01", "phone", "Instagram", "social media", 30,
        none⟩ : TimeEntry)] = 0 :=
  ⟨by decide,
   (getTodayUsage_spec
      [⟨"a", "2024-01-01", "phone", "Instagram", "social media", 30, none⟩]
      "2024-01-02" "Instagram").2.2.2 (by decide)⟩

/-- C7: `getUsageByDate(d)` returns exactly the entries dated `d`, and the
empty list when none matches. -/
theorem getUsageByDate_spec (entries : List TimeEntry) (d : String) :
    (∀ e, e ∈ getUsageByDate d entries ↔ e ∈ entries ∧ e.date = d)
  ∧ ((∀ e ∈ entries, e.date ≠ d) → getUsageByDate d entries = []) := by
  constructor
  · intro e
    simp [getUsageByDate, List.mem_filter]
  · intro h
    rw [getUsageByDate, List.filter_eq_nil_iff]
    intro e he
    simpa using h e he

/-- C7 witness: evaluating the claim on a concrete list. -/
theorem getUsageByDate_spec_witness :
    ((⟨"a", "2024-01-01", "phone", "Instagram", "social media", 30, none⟩ :
        TimeEntry) ∈
      getUsageByDate "2024-01-01"
        [⟨"a", "2024-01-01", "phone", "Instagram", "social media", 30, none⟩,
         ⟨"b", "2024-01-02", "laptop", "Gmail", "productivity", 10, none⟩] ↔
      (⟨"a", "2024-01-01", "phone", "Instagram", "social media", 30, none⟩ :
        TimeEntry) ∈
        [⟨"a", "2024-01-01", "phone", "Instagram", "social media", 30, none⟩,
         ⟨"b", "2024-01-02", "laptop", "Gmail", "productivity", 10, none⟩] ∧
      "2024-01-01" = "2024-01-01") :=
  (getUsageByDate_spec
    [⟨"a", "2024-01-01", "phone", "Instagram", "social media", 30, none⟩,
     ⟨"b", "2024-01-02", "laptop", "Gmail", "productivity", 10, none⟩]
    "2024-01-01").1
    ⟨"a", "2024-01-01", "phone", "Instagram", "social media", 30, none⟩

/-- C9 counterexample: the claim quantifies over every partial update, but
`Partial<TimeEntry>` includes `id`, and `{ ...entry, ...updatedFields }`
then overwrites the entry's id: updating entry `"a"` with `{ id: "b" }`
changes the stored id. -/
theorem updateEntry_id_cex :
    ¬ ((updateEntry "a" ⟨some "b", none, none, none, none, none, none⟩
        [⟨"a", "2024-01-01", "phone", "Instagram", "social media", 30,
          none⟩]).map TimeEntry.id =
      ([⟨"a", "2024-01-01", "phone", "Instagram", "social media", 30,
          none⟩] : List TimeEntry).map TimeEntry.id) := by
  decide

/-- C9 (amended): `updateEntry(id, fields)` leaves the id of every entry in
the collection unchanged whenever the partial update does not itself
contain an `id` field. -/
theorem updateEntry_preserves_ids (i : String) (p : PatchEntry)
    (entries : List TimeEntry) (hp : p.id = none) :
    (updateEntry i p entries).map TimeEntry.id =
      entries.map TimeEntry.id := by
  rw [updateEntry, List.map_map]
  apply List.map_congr_left
  intro e _
  by_cases h : e.id = i <;> simp [Function.comp, h, patchEntry, hp]

/-- C9 witness: an id-less patch on a concrete list. -/
theorem updateEntry_preserves_ids_witness :
    ((⟨none, none, none, none, none, some 45, none⟩ : PatchEntry).id =
      none) ∧
    (updateEntry "a" ⟨none, none, none, none, none, some 45, none⟩
        [⟨"a", "2024-01-01", "phone", "Instagram", "social media", 30,
          none⟩]).map TimeEntry.id =
      ([⟨"a", "2024-01-01", "phone", "Instagram", "social media", 30,
          none⟩] : List TimeEntry).map TimeEntry.id :=
  ⟨by decide,
   updateEntry_preserves_ids "a" ⟨none, none, none, none, none, some 45, none⟩
     [⟨"a", "2024-01-01", "phone", "Instagram", "social media", 30, none⟩]
     rfl⟩

/-- C10: with an id matching no element of the targeted collection,
`updateEntry`, `deleteEntry`, `updateGoal` and `deleteGoal` each leave the
whole store (both collections) exactly unchanged. -/
theorem missing_id_noop (s : Store) (ie ig : String) (pe : PatchEntry)
    (pg : PatchGoal) (he : ie ∉ s.entries.map TimeEntry.id)
    (hg : ig ∉ s.goals.map Goal.id) :
    storeUpdateEntry ie pe s = s ∧ storeDeleteEntry ie s = s ∧
    storeUpdateGoal ig pg s = s ∧ storeDeleteGoal ig s = s := by
  have hne : ∀ e ∈ s.entries, ¬ e.id = ie := by
    intro e heq h
    exact he (List.mem_map.mpr ⟨e, heq, h⟩)
  have hng : ∀ g ∈ s.goals, ¬ g.id = ig := by
    intro g hgq h
    exact hg (List.mem_map.mpr ⟨g, hgq, h⟩)
  refine ⟨?_, ?_, ?_, ?_⟩
  · rw [storeUpdateEntry, updateEntry]
    have h1 : s.entries.map
        (fun e => if e.id == ie then patchEntry e pe else e) =
        s.entries.map (fun e => e) :=
      List.map_congr_left fun e hmem => by simp [hne e hmem]
    rw [h1, List.map_id']
  · rw [storeDeleteEntry, deleteEntry]
    rw [List.filter_eq_self.mpr fun e hmem => by simp [hne e hmem]]
  · rw [storeUpdateGoal, updateGoal]
    have h2 : s.goals.map
        (fun g => if g.id == ig then patchGoal g pg else g) =
        s.goals.map (fun g => g) :=
      List.map_congr_left fun g hmem => by simp [hng g hmem]
    rw [h2, List.map_id']
  · rw [storeDeleteGoal, deleteGoal]
    rw [List.filter_eq_self.mpr fun g hmem => by simp [hng g hmem]]

/-- C10 witness: a concrete store and ids absent from both collections. -/
theorem missing_id_noop_witness :
    ("z" ∉ ([⟨"a", "2024-01-01", "phone", "Instagram", "social media", 30,
        none⟩] : List TimeEntry).map TimeEntry.id) ∧
    ("y" ∉ ([⟨"g1", "total", "", 120⟩] : List Goal).map Goal.id) ∧
    storeUpdateEntry "z" ⟨none, none, none, none, none, some 5, none⟩
      ⟨[⟨"a", "2024-01-01", "phone", "Instagram", "social media", 30, none⟩],
       [⟨"g1", "total", "", 120⟩]⟩ =
      ⟨[⟨"a", "2024-01-01", "phone", "Instagram", "social media", 30, none⟩],
       [⟨"g1", "total", "", 120⟩]⟩ :=
  ⟨by decide, by decide,
   (missing_id_noop
     ⟨[⟨"a", "2024-01-01", "phone", "Instagram", "social media", 30, none⟩],
      [⟨"g1", "total", "", 120⟩]⟩
     "z" "y" ⟨none, none, none, none, none, some 5, none⟩
     ⟨none, none, none, none⟩ (by decide) (by decide)).1⟩

/-- The conflict condition exactly as the claim words it: same type, same
target for `app`/`category`, target ignored for `total`. -/
def conflictSpec (type : String) (target : Option String) (g : Goal) :
    Prop :=
  (type = "total" ∧ g.type = "total") ∨
  (type = "category" ∧ g.type = "category" ∧ some g.target = target) ∨
  (type = "app" ∧ g.type = "app" ∧ some g.target = target)

theorem conflictPred_iff (type : String) (target excludeId : Option String)
    (g : Goal) (hex : excludeId ≠ some "") :
    conflictPred type target excludeId g = true ↔
      excludeId ≠ some g.id ∧ conflictSpec type target g := by
  have hchain : ∀ a b c : Bool,
      (if a then (true : Bool) else if b then true else if c then true
        else false) = (a || b || c) := by decide
  have hskipval : (jsTruthy excludeId && (some g.id == excludeId)) =
      decide (excludeId = some g.id) := by
    cases excludeId with
    | none => simp [jsTruthy]
    | some s =>
        have hs : ¬ s = "" := fun h => hex (by rw [h])
        by_cases h : g.id = s
        · simp [jsTruthy, hs, h]
        · have h' : ¬ s = g.id := fun hh => h hh.symm
          simp [jsTruthy, hs, h, h']
  unfold conflictPred
  rw [hskipval, hchain]
  by_cases hski : excludeId = some g.id
  · simp [hski, conflictSpec]
  · simp [hski, conflictSpec]
    tauto

/-- C2: `hasConflict(type, target, limit, excludeId?)` reports a conflict
iff some goal whose id differs from `excludeId` matches per `conflictSpec`
(same type; same target unless the type is `total`), and the `limit`
argument never affects the result. `excludeId`, when given, is a goal id
(generated ids are never the empty string, which JS truthiness would treat
as absent). -/
theorem hasConflict_spec (goals : List Goal) (type : String)
    (target : Option String) (limit : Nat) (excludeId : Option String)
    (hex : excludeId ≠ some "") :
    ((hasConflict goals type target limit excludeId).isSome ↔
      ∃ g ∈ goals, excludeId ≠ some g.id ∧ conflictSpec type target g)
  ∧ ∀ l1 l2 : Nat, hasConflict goals type target l1 excludeId =
      hasConflict goals type target l2 excludeId := by
  refine ⟨?_, fun l1 l2 => rfl⟩
  rw [hasConflict, List.find?_isSome]
  constructor
  · rintro ⟨g, hg, hp⟩
    exact ⟨g, hg, (conflictPred_iff type target excludeId g hex).1 hp⟩
  · rintro ⟨g, hg, hp⟩
    exact ⟨g, hg, (conflictPred_iff type target excludeId g hex).2 hp⟩

/-- C2 witness: a concrete goal list with one total goal. -/
theorem hasConflict_spec_witness :
    ((none : Option String) ≠ some "") ∧
    (((hasConflict [⟨"g1", "total", "", 120⟩] "total" (some "") 60
        none).isSome ↔
      ∃ g ∈ [(⟨"g1", "total", "", 120⟩ : Goal)],
        (none : Option String) ≠ some g.id ∧ conflictSpec "total" (some "") g)
    ∧ ∀ l1 l2 : Nat, hasConflict [⟨"g1", "total", "", 120⟩] "total"
        (some "") l1 none =
      hasConflict [⟨"g1", "total", "", 120⟩] "total" (some "") l2 none) :=
  ⟨by decide,
   hasConflict_spec [⟨"g1", "total", "", 120⟩] "total" (some "") 60 none
     (by decide)⟩

/-- C4: submitting a new goal (`isEditing` absent) of type `total` while a
total goal exists surfaces the inline error, does not call `addGoal`, and
leaves the goal collection unchanged. -/
theorem submit_total_rejected (goals : List Goal) (v : GoalVals)
    (newId : String) (hv : v.type = "total")
    (hex : ∃ g ∈ goals, g.type = "total") :
    (onSubmitGoal goals none v newId).formError =
      some (errorMessageFor v) ∧
    (onSubmitGoal goals none v newId).goals = goals ∧
    (onSubmitGoal goals none v newId).calledAddGoal = false := by
  obtain ⟨g, hg, hgt⟩ := hex
  have hc : (hasConflict goals v.type (some v.target) v.limit
      (jsOrUndefined none)).isSome := by
    rw [hasConflict, List.find?_isSome]
    exact ⟨g, hg, by simp [conflictPred, jsOrUndefined, jsTruthy, hv, hgt]⟩
  simp [onSubmitGoal, hc]

/-- C4 witness: one existing total goal, new total goal rejected. -/
theorem submit_total_rejected_witness :
    ((⟨"total", "", 60⟩ : GoalVals).type = "total") ∧
    (∃ g ∈ [(⟨"g1", "total", "", 120⟩ : Goal)], g.type = "total") ∧
    (onSubmitGoal [⟨"g1", "total", "", 120⟩] none ⟨"total", "", 60⟩
        "g2").formError = some (errorMessageFor ⟨"total", "", 60⟩) ∧
    (onSubmitGoal [⟨"g1", "total", "", 120⟩] none ⟨"total", "", 60⟩
        "g2").goals = [⟨"g1", "total", "", 120⟩] ∧
    (onSubmitGoal [⟨"g1", "total", "", 120⟩] none ⟨"total", "", 60⟩
        "g2").calledAddGoal = false :=
  ⟨rfl, by decide,
   submit_total_rejected [⟨"g1", "total", "", 120⟩] ⟨"total", "", 60⟩ "g2"
     rfl (by decide)⟩

/-- C8 counterexample: the zod schema coerces `hours` to a number with only
`min(0)`/`max(24)` bounds and no integrality constraint, so the accepted
input `hours = 0.505`, `minutes = 0` stores the non-integer duration
`30.3`. -/
theorem submittedDuration_not_int_cex :
    formSchemaAccepts
      ⟨"Instagram", "social media", "phone", 101 / 200, 0, none⟩ ∧
    ¬ ∃ n : ℤ, submittedDuration
      ⟨"Instagram", "social media", "phone", 101 / 200, 0, none⟩ =
        (n : ℚ) := by
  constructor
  · refine ⟨by decide, by decide, by decide, by norm_num, by norm_num,
      by norm_num, by norm_num⟩
  · rintro ⟨n, hn⟩
    rw [submittedDuration] at hn
    have h10 : ((10 * n : ℤ) : ℚ) = 303 := by
      push_cast
      rw [← hn]
      norm_num
    have : (10 * n : ℤ) = 303 := by exact_mod_cast h10
    omega

/-- C8 (amended): every accepted form submission stores a non-negative
duration `hours * 60 + minutes`, and whenever `hours` and `minutes` are
integers (as the integer-stepped number inputs provide) the stored
duration is the non-negative integer `hours * 60 + minutes` minutes; the
zod schema itself does not force integrality. -/
theorem submittedDuration_nonneg_int (v : FormValues)
    (hacc : formSchemaAccepts v) :
    0 ≤ submittedDuration v ∧
    ∀ h m : ℕ, v.hours = h → v.minutes = m →
      submittedDuration v = ((h * 60 + m : ℕ) : ℚ) := by
  obtain ⟨-, -, -, hh0, -, hm0, -⟩ := hacc
  constructor
  · rw [submittedDuration]
    have : 0 ≤ v.hours * 60 := by positivity
    linarith
  · intro h m hh hm
    rw [submittedDuration, hh, hm]
    push_cast
    ring

/-- C8 witness: an integral submission (2h 30m). -/
theorem submittedDuration_nonneg_int_witness :
    formSchemaAccepts ⟨"Gmail", "productivity", "laptop", 2, 30, none⟩ ∧
    (0 ≤ submittedDuration
        ⟨"Gmail", "productivity", "laptop", 2, 30, none⟩ ∧
      ∀ h m : ℕ,
        (⟨"Gmail", "productivity", "laptop", 2, 30, none⟩ :
            FormValues).hours = h →
        (⟨"Gmail", "productivity", "laptop", 2, 30, none⟩ :
            FormValues).minutes = m →
        submittedDuration ⟨"Gmail", "productivity", "laptop", 2, 30, none⟩ =
          ((h * 60 + m : ℕ) : ℚ)) :=
  ⟨⟨by decide, by decide, by decide, by norm_num, by norm_num, by norm_num,
     by norm_num⟩,
   submittedDuration_nonneg_int
     ⟨"Gmail", "productivity", "laptop", 2, 30, none⟩
     ⟨by decide, by decide, by decide, by norm_num, by norm_num, by norm_num,
      by norm_num⟩⟩

/-! ## Grouping lemmas (`UsageStats`) -/

/-- Value lookup in the association-list model of the JS `Map`
(0 when absent, matching `grouped.get(key) ?? 0`). -/
def lookupDuration : List (String × Nat) → String → Nat
  | [], _ => 0
  | p :: rest, k => if p.1 == k then p.2 else lookupDuration rest k

theorem mapSet_lookup_self (m : List (String × Nat)) (k : String) (d : Nat) :
    lookupDuration (mapSet m k d) k = lookupDuration m k + d := by
  induction m with
  | nil => simp [mapSet, lookupDuration]
  | cons p rest ih =>
      obtain ⟨k0, d0⟩ := p
      by_cases h : k0 = k
      · simp [mapSet, h, lookupDuration]
      · simp [mapSet, h, lookupDuration, ih]

theorem mapSet_lookup_ne (m : List (String × Nat)) (k d : _) (k' : String)
    (h : k' ≠ k) :
    lookupDuration (mapSet m k d) k' = lookupDuration m k' := by
  induction m with
  | nil => simp [mapSet, lookupDuration, Ne.symm h]
  | cons p rest ih =>
      obtain ⟨k0, d0⟩ := p
      by_cases h0 : k0 = k
      · subst h0
        simp [mapSet, lookupDuration, Ne.symm h]
      · simp [mapSet, h0, lookupDuration, ih]

theorem mapSet_keys (m : List (String × Nat)) (k : String) (d : Nat) :
    (mapSet m k d).map Prod.fst =
      if k ∈ m.map Prod.fst then m.map Prod.fst
      else m.map Prod.fst ++ [k] := by
  induction m with
  | nil => simp [mapSet]
  | cons p rest ih =>
      obtain ⟨k0, d0⟩ := p
      by_cases h : k0 = k
      · simp [mapSet, h]
      · by_cases hk : k ∈ rest.map Prod.fst <;>
          simp [mapSet, h, Ne.symm h, hk, ih]

theorem mem_keys_mapSet (m : List (String × Nat)) (k d : _) (k' : String) :
    k' ∈ (mapSet m k d).map Prod.fst ↔
      k' ∈ m.map Prod.fst ∨ k' = k := by
  rw [mapSet_keys]
  by_cases h : k ∈ m.map Prod.fst
  · simp only [h, if_true]
    constructor
    · exact Or.inl
    · rintro (h' | rfl)
      · exact h'
      · exact h
  · simp [h]

theorem keys_nodup_mapSet (m : List (String × Nat)) (k d : _)
    (h : (m.map Prod.fst).Nodup) :
    ((mapSet m k d).map Prod.fst).Nodup := by
  rw [mapSet_keys]
  by_cases hk : k ∈ m.map Prod.fst
  · simpa [hk] using h
  · simp only [hk, if_false]
    refine List.Nodup.append h (List.nodup_singleton k) ?_
    intro a ha hb
    rw [List.mem_singleton] at hb
    subst hb
    exact hk ha

theorem foldl_mapSet_lookup (view : String) (es : List TimeEntry)
    (m : List (String × Nat)) (k : String) :
    lookupDuration
        (es.foldl (fun m e => mapSet m (entryKey view e) e.duration) m) k =
      lookupDuration m k +
        ((es.filter fun e => entryKey view e == k).map
          TimeEntry.duration).sum := by
  induction es generalizing m with
  | nil => simp
  | cons e t ih =>
      rw [List.foldl_cons, ih]
      by_cases h : entryKey view e = k
      · subst h
        rw [mapSet_lookup_self]
        simp [List.filter_cons, Nat.add_assoc]
      · rw [mapSet_lookup_ne _ _ _ _ fun hh => h hh.symm]
        simp [List.filter_cons, h]

theorem foldl_mapSet_keys_mem (view : String) (es : List TimeEntry)
    (m : List (String × Nat)) (k : String) :
    k ∈ ((es.foldl (fun m e => mapSet m (entryKey view e) e.duration)
        m).map Prod.fst) ↔
      k ∈ m.map Prod.fst ∨ ∃ e ∈ es, entryKey view e = k := by
  induction es generalizing m with
  | nil => simp
  | cons e t ih =>
      rw [List.foldl_cons, ih, mem_keys_mapSet]
      constructor
      · rintro ((h | rfl) | h)
        · exact Or.inl h
        · exact Or.inr ⟨e, List.mem_cons_self e t, rfl⟩
        · obtain ⟨e', he', hk⟩ := h
          exact Or.inr ⟨e', List.mem_cons_of_mem e he', hk⟩
      · rintro (h | ⟨e', he', hk⟩)
        · exact Or.inl (Or.inl h)
        · rcases List.mem_cons.mp he' with rfl | he''
          · exact Or.inl (Or.inr hk.symm)
          · exact Or.inr ⟨e', he'', hk⟩

theorem foldl_mapSet_keys_nodup (view : String) (es : List TimeEntry)
    (m : List (String × Nat)) (h : (m.map Prod.fst).Nodup) :
    ((es.foldl (fun m e => mapSet m (entryKey view e) e.duration)
        m).map Prod.fst).Nodup := by
  induction es generalizing m with
  | nil => exact h
  | cons e t ih => exact ih _ (keys_nodup_mapSet _ _ _ h)

theorem lookup_of_mem_nodup (m : List (String × Nat)) (p : String × Nat)
    (hp : p ∈ m) (hnd : (m.map Prod.fst).Nodup) :
    lookupDuration m p.1 = p.2 := by
  induction m with
  | nil => cases hp
  | cons q rest ih =>
      rcases List.mem_cons.mp hp with rfl | hp'
      · simp [lookupDuration]
      · have hq : q.1 ∉ rest.map Prod.fst := (List.nodup_cons.mp hnd).1
        have hne : ¬ q.1 = p.1 := fun h =>
          hq (h ▸ List.mem_map.mpr ⟨p, hp', rfl⟩)
        simp only [lookupDuration, beq_iff_eq, hne, if_false]
        exact ih hp' (List.nodup_cons.mp hnd).2

/-- C6: the grouped chart data has one item per distinct key of the selected
date's entries, each item's duration is the sum of the matching entries'
durations, the items are sorted descending by duration, and each item's
percentage is its duration over the total of the date's entries, times 100
and rounded to the nearest integer (`Math.round`). The hypothesis mirrors
the `totalMinutes > 0` guard under which the component renders the items. -/
theorem getGroupedData_spec (view date : String) (entries : List TimeEntry)
    (htot : 0 < totalMinutes date entries) :
    ((getGroupedData view date entries).map GroupItem.name).Nodup
  ∧ (∀ it ∈ getGroupedData view date entries,
      it.duration = (((filteredEntries date entries).filter fun e =>
        entryKey view e == it.name).map TimeEntry.duration).sum)
  ∧ (∀ e ∈ entries, e.date = date →
      ∃ it ∈ getGroupedData view date entries, it.name = entryKey view e)
  ∧ List.Sorted byDurationDesc (getGroupedData view date entries)
  ∧ (∀ it ∈ getGroupedData view date entries,
      percentage (totalMinutes date entries) it.duration =
        round (100 * (it.duration : ℚ) /
          ((((filteredEntries date entries).map TimeEntry.duration).sum :
            ℕ) : ℚ))) := by
  have hperm := List.perm_insertionSort byDurationDesc
    ((groupedMap view date entries).map fun p => (⟨p.1, p.2⟩ : GroupItem))
  have hgd : getGroupedData view date entries =
      List.insertionSort byDurationDesc
        ((groupedMap view date entries).map fun p =>
          (⟨p.1, p.2⟩ : GroupItem)) := rfl
  have hkeysnd : ((groupedMap view date entries).map Prod.fst).Nodup := by
    rw [groupedMap]
    exact foldl_mapSet_keys_nodup view _ [] (by simp)
  have hnames : ((groupedMap view date entries).map (fun p =>
      (⟨p.1, p.2⟩ : GroupItem))).map GroupItem.name =
      (groupedMap view date entries).map Prod.fst := by
    rw [List.map_map]
    rfl
  refine ⟨?_, ?_, ?_, ?_, ?_⟩
  · rw [hgd]
    have := (hperm.map GroupItem.name).nodup_iff
    rw [hnames] at this
    exact this.mpr hkeysnd
  · intro it hit
    rw [hgd] at hit
    have hmem := hperm.mem_iff.mp hit
    obtain ⟨p, hp, hpe⟩ := List.mem_map.mp hmem
    have hlk : lookupDuration (groupedMap view date entries) p.1 = p.2 :=
      lookup_of_mem_nodup _ p hp hkeysnd
    rw [groupedMap, foldl_mapSet_lookup] at hlk
    simp only [lookupDuration, Nat.zero_add] at hlk
    have hname : it.name = p.1 := by rw [← hpe]
    have hdur : it.duration = p.2 := by rw [← hpe]
    rw [hdur, hname, ← hlk]
  · intro e he hdate
    have hef : e ∈ filteredEntries date entries := by
      rw [filteredEntries, List.mem_filter]
      exact ⟨he, by simp [hdate]⟩
    have hkey : entryKey view e ∈
        (groupedMap view date entries).map Prod.fst := by
      rw [groupedMap, foldl_mapSet_keys_mem]
      exact Or.inr ⟨e, hef, rfl⟩
    obtain ⟨p, hp, hpk⟩ := List.mem_map.mp hkey
    refine ⟨⟨p.1, p.2⟩, ?_, hpk⟩
    rw [hgd, hperm.mem_iff]
    exact List.mem_map.mpr ⟨p, hp, rfl⟩
  · rw [hgd]
    exact List.sorted_insertionSort byDurationDesc _
  · intro it _
    have hsum : totalMinutes date entries =
        ((filteredEntries date entries).map TimeEntry.duration).sum := by
      rw [totalMinutes, foldl_add_duration, Nat.zero_add]
    rw [percentage, hsum, div_mul_eq_mul_div, mul_comm]

/-- C6 witness: three entries on one date, viewed by category. -/
theorem getGroupedData_spec_witness :
    0 < totalMinutes "2024-01-01"
      [⟨"a", "2024-01-01", "phone", "Instagram", "social media", 30, none⟩,
       ⟨"b", "2024-01-01", "laptop", "Gmail", "productivity", 50, none⟩,
       ⟨"c", "2024-01-01", "phone", "TikTok", "social media", 10, none⟩] ∧
    List.Sorted byDurationDesc
      (getGroupedData "category" "2024-01-01"
        [⟨"a", "2024-01-01", "phone", "Instagram", "social media", 30, none⟩,
         ⟨"b", "2024-01-01", "laptop", "Gmail", "productivity", 50, none⟩,
         ⟨"c", "2024-01-01", "phone", "TikTok", "social media", 10,
           none⟩]) :=
  ⟨by decide,
   (getGroupedData_spec "category" "2024-01-01"
     [⟨"a", "2024-01-01", "phone", "Instagram", "social media", 30, none⟩,
      ⟨"b", "2024-01-01", "laptop", "Gmail", "productivity", 50, none⟩,
      ⟨"c", "2024-01-01", "phone", "TikTok", "social media", 10, none⟩]
     (by decide)).2.2.2.1⟩

/-! ## Data-projection lemmas for the delete/re-add equivalence -/

/-- The predicate `todayFilter` on the id-less projection of an entry. -/
def todayFilterData (today : String) (type target : Option String)
    (x : EntryData) : Bool :=
  if x.date != today then false
  else if !(jsTruthy type) then true
  else if type == some "app" then some x.app == target
  else if type == some "category" then some x.category == target
  else true

/-- The key `entryKey` on the id-less projection of an entry. -/
def entryKeyData (view : String) (x : EntryData) : String :=
  if view == "category" then x.category
  else if view == "app" then x.app
  else x.device

theorem sum_filter_data (p : EntryData → Bool) (l : List TimeEntry) :
    ((l.filter fun e => p (entryData e)).map TimeEntry.duration).sum =
      (((l.map entryData).filter p).map EntryData.duration).sum := by
  rw [List.filter_map, List.map_map]
  exact rfl

theorem sum_filter_congr (p : EntryData → Bool) {l1 l2 : List TimeEntry}
    (h : (l1.map entryData).Perm (l2.map entryData)) :
    ((l1.filter fun e => p (entryData e)).map TimeEntry.duration).sum =
      ((l2.filter fun e => p (entryData e)).map TimeEntry.duration).sum := by
  rw [sum_filter_data, sum_filter_data]
  exact ((h.filter p).map EntryData.duration).sum_eq

theorem map_entryData_filter (p : EntryData → Bool) (l : List TimeEntry) :
    ((l.filter fun e => p (entryData e)).map entryData) =
      (l.map entryData).filter p := by
  rw [List.filter_map]
  exact rfl

theorem getTodayUsage_congr {l1 l2 : List TimeEntry}
    (h : (l1.map entryData).Perm (l2.map entryData))
    (today : String) (type target : Option String) :
    getTodayUsage today type target l1 = getTodayUsage today type target l2 := by
  rw [getTodayUsage, getTodayUsage, foldl_add_duration, foldl_add_duration,
    Nat.zero_add, Nat.zero_add]
  exact sum_filter_congr (todayFilterData today type target) h

theorem totalMinutes_congr {l1 l2 : List TimeEntry}
    (h : (l1.map entryData).Perm (l2.map entryData)) (date : String) :
    totalMinutes date l1 = totalMinutes date l2 := by
  rw [totalMinutes, totalMinutes, foldl_add_duration, foldl_add_duration,
    Nat.zero_add, Nat.zero_add, filteredEntries, filteredEntries]
  exact sum_filter_congr (fun x => x.date == date) h

theorem getUsageByDate_map_congr {l1 l2 : List TimeEntry}
    (h : (l1.map entryData).Perm (l2.map entryData)) (d : String) :
    ((getUsageByDate d l1).map entryData).Perm
      ((getUsageByDate d l2).map entryData) := by
  rw [getUsageByDate, getUsageByDate]
  rw [show ((l1.filter fun e => e.date == d).map entryData) =
        (l1.map entryData).filter (fun x => x.date == d) from
      map_entryData_filter (fun x => x.date == d) l1]
  rw [show ((l2.filter fun e => e.date == d).map entryData) =
        (l2.map entryData).filter (fun x => x.date == d) from
      map_entryData_filter (fun x => x.date == d) l2]
  exact h.filter _

theorem groupedMap_lookup_congr {l1 l2 : List TimeEntry}
    (h : (l1.map entryData).Perm (l2.map entryData))
    (view date k : String) :
    lookupDuration (groupedMap view date l1) k =
      lookupDuration (groupedMap view date l2) k := by
  rw [groupedMap, groupedMap, foldl_mapSet_lookup, foldl_mapSet_lookup]
  simp only [lookupDuration, Nat.zero_add]
  rw [filteredEntries, filteredEntries, List.filter_filter,
    List.filter_filter]
  exact sum_filter_congr
    (fun x => (entryKeyData view x == k) && (x.date == date)) h

theorem delete_readd_perm (entries : List TimeEntry) (e : TimeEntry)
    (newId : String) (he : e ∈ entries)
    (hids : (entries.map TimeEntry.id).Nodup) :
    ((addEntry newId (entryData e) (deleteEntry e.id entries)).map
      entryData).Perm (entries.map entryData) := by
  induction entries with
  | nil => cases he
  | cons c t ih =>
      rw [List.map_cons, List.nodup_cons] at hids
      obtain ⟨hc1, hc2⟩ := hids
      rcases List.mem_cons.mp he with rfl | he'
      · have hfilter : t.filter (fun x => x.id != e.id) = t := by
          rw [List.filter_eq_self]
          intro x hx
          simp only [bne_iff_ne, ne_eq]
          exact fun hh => hc1 (hh ▸ List.mem_map.mpr ⟨x, hx, rfl⟩)
        rw [addEntry, deleteEntry, List.filter_cons]
        simp only [bne_self_eq_false, Bool.false_eq_true, if_false]
        rw [show t.filter (fun x => x.id != e.id) = t from hfilter,
          List.map_append]
        exact List.perm_append_singleton _ _
      · have hcne : (c.id != e.id) = true := by
          simp only [bne_iff_ne, ne_eq]
          exact fun hh => hc1 (hh ▸ List.mem_map.mpr ⟨e, he', rfl⟩)
        rw [addEntry, deleteEntry, List.filter_cons, hcne]
        simp only [if_true, List.cons_append, List.map_cons]
        exact List.Perm.cons _ (ih he' hc2)

/-- C5: deleting an entry and re-adding an entry with the same data (fresh
id) yields a state equivalent up to ids: the multiset of id-less entry
records is unchanged, and with it every aggregate (today's usage in all
its variants, per-date usage, per-date totals and the chart groupings).
Collections are keyed by generated identifier, so ids are distinct. -/
theorem delete_readd_equiv (entries : List TimeEntry) (e : TimeEntry)
    (newId : String) (he : e ∈ entries)
    (hids : (entries.map TimeEntry.id).Nodup) :
    ((addEntry newId (entryData e) (deleteEntry e.id entries)).map
      entryData).Perm (entries.map entryData)
  ∧ (∀ today type target,
      getTodayUsage today type target
        (addEntry newId (entryData e) (deleteEntry e.id entries)) =
      getTodayUsage today type target entries)
  ∧ (∀ d, ((getUsageByDate d
        (addEntry newId (entryData e) (deleteEntry e.id entries))).map
          entryData).Perm ((getUsageByDate d entries).map entryData))
  ∧ (∀ date, totalMinutes date
        (addEntry newId (entryData e) (deleteEntry e.id entries)) =
      totalMinutes date entries)
  ∧ (∀ view date k, lookupDuration
        (groupedMap view date
          (addEntry newId (entryData e) (deleteEntry e.id entries))) k =
      lookupDuration (groupedMap view date entries) k) := by
  have hperm := delete_readd_perm entries e newId he hids
  exact ⟨hperm,
    fun today type target => getTodayUsage_congr hperm today type target,
    fun d => getUsageByDate_map_congr hperm d,
    fun date => totalMinutes_congr hperm date,
    fun view date k => groupedMap_lookup_congr hperm view date k⟩

/-- C5 witness: delete and re-add the first of two concrete entries. -/
theorem delete_readd_equiv_witness :
    ((⟨"a", "2024-01-01", "phone", "Instagram", "social media", 30, none⟩ :
        TimeEntry) ∈
      [(⟨"a", "2024-01-01", "phone", "Instagram", "social media", 30,
          none⟩ : TimeEntry),
       ⟨"b", "2024-01-02", "laptop", "Gmail", "productivity", 10, none⟩]) ∧
    (([(⟨"a", "2024-01-01", "phone", "Instagram", "social media", 30,
          none⟩ : TimeEntry),
       ⟨"b", "2024-01-02", "laptop", "Gmail", "productivity", 10,
         none⟩].map TimeEntry.id).Nodup) ∧
    ((addEntry "c"
        (entryData ⟨"a", "2024-01-01", "phone", "Instagram", "social media",
          30, none⟩)
        (deleteEntry "a"
          [⟨"a", "2024-01-01", "phone", "Instagram", "social media", 30,
             none⟩,
           ⟨"b", "2024-01-02", "laptop", "Gmail", "productivity", 10,
             none⟩])).map entryData).Perm
      ([(⟨"a", "2024-01-01", "phone", "Instagram", "social media", 30,
           none⟩ : TimeEntry),
        ⟨"b", "2024-01-02", "laptop", "Gmail", "productivity", 10,
          none⟩].map entryData) :=
  ⟨by decide, by decide,
   (delete_readd_equiv
     [⟨"a", "2024-01-01", "phone", "Instagram", "social media", 30, none⟩,
      ⟨"b", "2024-01-02", "laptop", "Gmail", "productivity", 10, none⟩]
     ⟨"a", "2024-01-01", "phone", "Instagram", "social media", 30, none⟩
     "c" (by decide) (by decide)).1⟩

/-! ## Goal uniqueness invariant (C3) -/

theorem sameSlot_to_conflictSpec_left (g : Goal) (v : GoalVals) (b : Goal)
    (hbt : b.type = v.type) (hbtg : b.target = v.target)
    (hslot : sameSlot g b) : conflictSpec v.type (some v.target) g := by
  rcases hslot with ⟨hg, hb⟩ | ⟨hgc, htype, htarget⟩
  · exact Or.inl ⟨by rw [← hbt, hb], hg⟩
  · rcases hgc with hg | hg
    · refine Or.inr (Or.inr ⟨?_, hg, ?_⟩)
      · rw [← hbt, ← htype, hg]
      · rw [htarget, hbtg]
    · refine Or.inr (Or.inl ⟨?_, hg, ?_⟩)
      · rw [← hbt, ← htype, hg]
      · rw [htarget, hbtg]

theorem sameSlot_to_conflictSpec_right (b : Goal) (v : GoalVals) (g : Goal)
    (hbt : b.type = v.type) (hbtg : b.target = v.target)
    (hslot : sameSlot b g) : conflictSpec v.type (some v.target) g := by
  rcases hslot with ⟨hb, hg⟩ | ⟨hbc, htype, htarget⟩
  · exact Or.inl ⟨by rw [← hbt, hb], hg⟩
  · rcases hbc with hb | hb
    · refine Or.inr (Or.inr ⟨?_, ?_, ?_⟩)
      · rw [← hbt, hb]
      · rw [← htype, hb]
      · rw [← htarget, hbtg]
    · refine Or.inr (Or.inl ⟨?_, ?_, ?_⟩)
      · rw [← hbt, hb]
      · rw [← htype, hb]
      · rw [← htarget, hbtg]

theorem hasConflict_none_spec (goals : List Goal) (v : GoalVals)
    (hc : hasConflict goals v.type (some v.target) v.limit none = none) :
    ∀ g ∈ goals, ¬ conflictSpec v.type (some v.target) g := by
  rw [hasConflict, List.find?_eq_none] at hc
  intro g hg hspec
  have hp : conflictPred v.type (some v.target) none g = false := by
    simpa using hc g hg
  have hiff := conflictPred_iff v.type (some v.target) none g (by simp)
  rw [hp] at hiff
  exact Bool.false_ne_true (hiff.mpr ⟨by simp, hspec⟩)

theorem hasConflict_exclude_spec (goals : List Goal) (v : GoalVals)
    (eid : String) (heid : eid ≠ "")
    (hc : hasConflict goals v.type (some v.target) v.limit (some eid) =
      none) :
    ∀ g ∈ goals, g.id ≠ eid → ¬ conflictSpec v.type (some v.target) g := by
  rw [hasConflict, List.find?_eq_none] at hc
  intro g hg hne hspec
  have hp : conflictPred v.type (some v.target) (some eid) g = false := by
    simpa using hc g hg
  have hiff := conflictPred_iff v.type (some v.target) (some eid) g
    (fun h => heid (Option.some.inj h))
  rw [hp] at hiff
  exact Bool.false_ne_true
    (hiff.mpr ⟨fun h => hne (Option.some.inj h).symm, hspec⟩)

theorem goalInvariant_addGoal (goals : List Goal) (v : GoalVals)
    (newId : String) (hinv : goalInvariant goals)
    (hc : hasConflict goals v.type (some v.target) v.limit none = none) :
    goalInvariant (addGoal newId v goals) := by
  have hnc := hasConflict_none_spec goals v hc
  rw [addGoal, goalInvariant, List.pairwise_append]
  refine ⟨hinv, List.pairwise_singleton _ _, ?_⟩
  intro a ha b hb
  rw [List.mem_singleton] at hb
  subst hb
  exact fun hslot =>
    hnc a ha (sameSlot_to_conflictSpec_left a v (mkGoal newId v) rfl rfl
      hslot)

theorem nodup_ids_addGoal (goals : List Goal) (newId : String) (v : GoalVals)
    (h : (goals.map Goal.id).Nodup) (hf : newId ∉ goals.map Goal.id) :
    ((addGoal newId v goals).map Goal.id).Nodup := by
  rw [addGoal, List.map_append]
  refine List.Nodup.append h (List.nodup_singleton _) ?_
  intro a ha hb
  rw [List.map_singleton, List.mem_singleton] at hb
  subst hb
  exact hf ha

theorem updateGoal_preserves_ids (i : String) (p : PatchGoal)
    (goals : List Goal) (hp : p.id = none) :
    (updateGoal i p goals).map Goal.id = goals.map Goal.id := by
  rw [updateGoal, List.map_map]
  apply List.map_congr_left
  intro g _
  by_cases h : g.id = i <;> simp [Function.comp, h, patchGoal, hp]

theorem goalInvariant_updateGoal (goals : List Goal) (v : GoalVals)
    (eid : String) (hnd : (goals.map Goal.id).Nodup)
    (hinv : goalInvariant goals) (heid : eid ≠ "")
    (hc : hasConflict goals v.type (some v.target) v.limit (some eid) =
      none) :
    goalInvariant (updateGoal eid (fullGoalPatch v) goals) := by
  have hexc := hasConflict_exclude_spec goals v eid heid hc
  have hids : goals.Pairwise (fun a b => a.id ≠ b.id) := by
    rw [List.Nodup] at hnd
    rw [← List.pairwise_map]
    exact hnd
  rw [updateGoal, goalInvariant, List.pairwise_map]
  refine List.Pairwise.imp_of_mem ?_ (hinv.and hids)
  intro a b ha hb hab
  obtain ⟨hnab, hab_ne⟩ := hab
  by_cases haid : a.id = eid <;> by_cases hbid : b.id = eid
  · exact absurd (haid.trans hbid.symm) hab_ne
  · simp only [haid, hbid, beq_iff_eq, if_true, if_false]
    intro hslot
    exact hexc b hb hbid
      (sameSlot_to_conflictSpec_right (patchGoal a (fullGoalPatch v)) v b
        rfl rfl hslot)
  · simp only [haid, hbid, beq_iff_eq, if_true, if_false]
    intro hslot
    exact hexc a ha haid
      (sameSlot_to_conflictSpec_left a v (patchGoal b (fullGoalPatch v))
        rfl rfl hslot)
  · simp only [haid, hbid, beq_iff_eq, if_false]
    exact hnab

/-- C3 counterexample: the claim fails on a reachable state. Create a total
goal, delete it, create another total goal while the undo toast is still
available, then click Undo: the undo re-creation performs no conflict
check, so the store ends with two total goals. -/
theorem goal_invariant_cex :
    ReachableU ⟨[⟨"id2", "total", "", 90⟩, ⟨"id3", "total", "", 120⟩],
      []⟩ ∧
    ¬ goalInvariant [⟨"id2", "total", "", 90⟩,
      ⟨"id3", "total", "", 120⟩] := by
  constructor
  · have h0 := ReachableU.init
    have h1 := ReachableU.submit h0 none ⟨"total", "", 120⟩ "id1"
      (by decide)
    have h2 := ReachableU.delete h1 ⟨"id1", "total", "", 120⟩ (by decide)
    have h3 := ReachableU.submit h2 none ⟨"total", "", 90⟩ "id2" (by decide)
    have h4 := ReachableU.undo h3 ⟨"total", "", 120⟩ "id3" (by decide)
      (by decide)
    have heq : undoStep
        (submitStep (deleteStep (submitStep ⟨[], []⟩ none
          ⟨"total", "", 120⟩ "id1") ⟨"id1", "total", "", 120⟩) none
          ⟨"total", "", 90⟩ "id2") ⟨"total", "", 120⟩ "id3" =
        ⟨[⟨"id2", "total", "", 90⟩, ⟨"id3", "total", "", 120⟩], []⟩ := by
      decide
    exact heq ▸ h4
  · intro hinv
    rw [goalInvariant, List.pairwise_cons] at hinv
    exact hinv.1 _ (List.mem_singleton.mpr rfl)
      (Or.inl ⟨rfl, rfl⟩)

/-- C3 (amended): the uniqueness invariant (at most one goal per
(type, target), at most one total goal) together with distinctness of ids
holds in every reachable state whose undo re-creations happen while no
conflicting goal exists; guarded goal submission (create and edit) and
deletion always preserve it, but an undo performed after a conflicting
goal was re-created in the meantime can break it. -/
theorem goal_invariant_safe (s : UIState) (h : ReachableS s) :
    goodGoals s.goals := by
  induction h with
  | init => exact ⟨by simp, List.Pairwise.nil⟩
  | @submit s hs isEditing v newId hfresh ih =>
      obtain ⟨hnd, hinv⟩ := ih
      show goodGoals (onSubmitGoal s.goals isEditing v newId).goals
      rw [onSubmitGoal]
      cases hcon : hasConflict s.goals v.type (some v.target) v.limit
          (jsOrUndefined isEditing) with
      | some c =>
          simp only [hcon, Option.isSome_some, if_true]
          exact ⟨hnd, hinv⟩
      | none =>
          simp only [hcon, Option.isSome_none, Bool.false_eq_true, if_false]
          by_cases hje : jsTruthy isEditing = true
          · obtain ⟨eid, heq⟩ : ∃ eid, isEditing = some eid := by
              cases isEditing with
              | none => simp [jsTruthy] at hje
              | some s' => exact ⟨s', rfl⟩
            subst heq
            have heid : eid ≠ "" := by simpa [jsTruthy] using hje
            have hjoru : jsOrUndefined (some eid) = some eid := by
              simp [jsOrUndefined, hje]
            rw [hjoru] at hcon
            simp only [hje, if_true]
            refine ⟨?_, ?_⟩
            · show ((updateGoal ((some eid).getD "") (fullGoalPatch v)
                  s.goals).map Goal.id).Nodup
              rw [updateGoal_preserves_ids _ _ _ rfl]
              exact hnd
            · exact goalInvariant_updateGoal s.goals v eid hnd hinv heid
                hcon
          · have hje' : jsTruthy isEditing = false := by
              simpa using hje
            have hjoru : jsOrUndefined isEditing = none := by
              simp [jsOrUndefined, hje']
            rw [hjoru] at hcon
            simp only [hje', Bool.false_eq_true, if_false]
            exact ⟨nodup_ids_addGoal s.goals newId v hnd hfresh,
              goalInvariant_addGoal s.goals v newId hinv hcon⟩
  | @delete s hs g hg ih =>
      obtain ⟨hnd, hinv⟩ := ih
      refine ⟨?_, ?_⟩
      · exact List.Nodup.sublist
          (List.Sublist.map Goal.id (List.filter_sublist _)) hnd
      · exact List.Pairwise.sublist (List.filter_sublist _) hinv
  | @undo s hs d newId hd hfresh hok ih =>
      obtain ⟨hnd, hinv⟩ := ih
      exact ⟨nodup_ids_addGoal s.goals newId d hnd hfresh,
        goalInvariant_addGoal s.goals d newId hinv hok⟩

/-- C3 witness: the amended invariant evaluated after one guarded create. -/
theorem goal_invariant_safe_witness :
    goodGoals (submitStep ⟨[], []⟩ none ⟨"total", "", 120⟩ "id1").goals :=
  goal_invariant_safe _
    (ReachableS.submit ReachableS.init none ⟨"total", "", 120⟩ "id1"
      (by decide))

end ScreenTimeApp
